import Mathlib

/-!
# btcbrainwallet: the derivation pipeline, the balance lookup and the session state machine

A shallow embedding of `main.go`.

* Go `string` values are Lean strings; `[]byte(s)` is the UTF-8 byte sequence of `s`.
* Go `error` values are modelled by their message; a `nil` error is `none`.
* Go `int` fields are `Int` (no arithmetic is done on them).
* The packages the program imports (`crypto/sha256`, `warpwallet/bitcoin`,
  `net/http`, `encoding/json`, `bubbles/textinput`) are not part of the program;
  each is a parameter: a record of the functions the program calls.
* Every call into the key-derivation pipeline or the balance service is recorded in a
  list of `Call`s returned next to the result, so that "this stage did not run" is a
  statement about the function.
-/

namespace Brainwallet

/-! ## Values shared with the libraries -/

/-- A Go `error` that is not `nil`, identified with what `Error()` returns. -/
structure GoError where
  msg : String
deriving DecidableEq, Repr

/-- The conversion `[]byte(s)` of a Go string. -/
def bytesOf (s : String) : List UInt8 :=
  s.toUTF8.data.toList

/-- The verb `%s` of `fmt`: every `%s` of the format takes the next operand; the
operands of this program are strings or errors, which `%s` prints by their message. -/
def sprintfChars : List Char → List String → List Char
  | '%' :: 's' :: rest, a :: args => a.data ++ sprintfChars rest args
  | c :: rest, args => c :: sprintfChars rest args
  | [], _ => []

/-- The function `fmt.Sprintf`, for formats whose verbs are `%s`. -/
def Sprintf (format : String) (args : List String) : String :=
  ⟨sprintfChars format.data args⟩

/-- The function `fmt.Errorf`, for formats whose verbs are `%s`. -/
def Errorf (format : String) (args : List String) : GoError :=
  ⟨Sprintf format args⟩

/-- The calls into the derivation pipeline and into the balance service. -/
inductive Call where
  | Sum256 (data : List UInt8)
  | NewBitcoinPrivKey (seed : List UInt8)
  | ToBTCAddress
  | Get (url : String)
  | ReadAll
  | Unmarshal (body : String)
deriving DecidableEq, Repr

/-- The calls that belong to the balance lookup (`addressData`). -/
def Call.isLookup : Call → Bool
  | .Get _ => true
  | .ReadAll => true
  | .Unmarshal _ => true
  | _ => false

/-- The call that runs the address encoder. -/
def Call.isEncoder : Call → Bool
  | .ToBTCAddress => true
  | _ => false

/-! ## Balance record (`main.go` 20-34) -/

/-- The constant `mempool`. -/
def mempool : String := "https://mempool.space/api/address/%s"

/-- The anonymous struct of the field `ChainStats`. -/
structure ChainStats where
  FundedTxoSum : Int
  SpentTxoSum : Int
deriving DecidableEq, Repr

/-- The struct `btcAddressData`. -/
structure btcAddressData where
  Address : String
  ChainStats : ChainStats
deriving DecidableEq, Repr

/-- The zero value of `btcAddressData` (`var data btcAddressData`). -/
def btcAddressData.zero : btcAddressData :=
  { Address := "", ChainStats := { FundedTxoSum := 0, SpentTxoSum := 0 } }

/-- The method `hasTransactions`. -/
def btcAddressData.hasTransactions (d : btcAddressData) : Bool :=
  decide (d.ChainStats.FundedTxoSum > 0)

/-! ## The derivation pipeline (`main.go` 185-192) -/

/-- The value of type `[32]byte` that `sha256.Sum256` returns. -/
abbrev Digest := { l : List UInt8 // l.length = 32 }

/-- The functions of `crypto/sha256` and `warpwallet/bitcoin` that `newAddress` calls.
`Priv` stands for `*ecdsa.PrivateKey`, `Pub` for `ecdsa.PublicKey`.
`NewBitcoinPrivKey` returns a key or an error; `ToBTCAddress` returns a string and an
error that may be `nil`. -/
structure Crypto (Priv Pub : Type) where
  Sum256 : List UInt8 → Digest
  NewBitcoinPrivKey : List UInt8 → Except GoError Priv
  PublicKey : Priv → Pub
  ToBTCAddress : Pub → String × Option GoError

/-- The function `newAddress`: the returned pair, and the calls made. -/
def newAddress {Priv Pub : Type} (c : Crypto Priv Pub) (passphrase : String) :
    (String × Option GoError) × List Call :=
  let hash1 := c.Sum256 (bytesOf passphrase)
  match c.NewBitcoinPrivKey hash1.val with
  | .error err =>
    (("", some err), [.Sum256 (bytesOf passphrase), .NewBitcoinPrivKey hash1.val])
  | .ok priv =>
    (c.ToBTCAddress (c.PublicKey priv),
      [.Sum256 (bytesOf passphrase), .NewBitcoinPrivKey hash1.val, .ToBTCAddress])

/-- The same libraries when a call may read and change state of the process that the
program does not hold (a random source, the clock, package variables of a library):
each function takes that state and returns, next to its result, the state it leaves.
`priv.PublicKey` is a field read. -/
structure CryptoW (ω Priv Pub : Type) where
  Sum256 : List UInt8 → ω → Digest × ω
  NewBitcoinPrivKey : List UInt8 → ω → Except GoError Priv × ω
  PublicKey : Priv → Pub
  ToBTCAddress : Pub → ω → (String × Option GoError) × ω

/-- The function `newAddress` over such libraries, the state passed from call to call:
the returned pair, and the state the last call leaves. -/
def newAddressW {ω Priv Pub : Type} (c : CryptoW ω Priv Pub) (passphrase : String)
    (w : ω) : (String × Option GoError) × ω :=
  let hash1 := c.Sum256 (bytesOf passphrase) w
  let key := c.NewBitcoinPrivKey hash1.1.val hash1.2
  match key.1 with
  | .error err => (("", some err), key.2)
  | .ok priv => c.ToBTCAddress (c.PublicKey priv) key.2

/-- Libraries that are functions of their arguments, as libraries that leave the state
of the process as they find it. -/
def Crypto.toW {Priv Pub : Type} (c : Crypto Priv Pub) (ω : Type) : CryptoW ω Priv Pub :=
  { Sum256 := fun data w => (c.Sum256 data, w)
    NewBitcoinPrivKey := fun seed w => (c.NewBitcoinPrivKey seed, w)
    PublicKey := c.PublicKey
    ToBTCAddress := fun pub w => (c.ToBTCAddress pub, w) }

/-! ## The balance lookup (`main.go` 194-214) -/

/-- What `http.Get` hands back when the transport worked: the status code and what
`ioutil.ReadAll(resp.Body)` will return. -/
structure Response where
  StatusCode : Int
  Body : Except GoError String

/-- The balance service and the decoder: `Get` is `http.Get`, `Unmarshal` is
`json.Unmarshal(body, &data)`, which receives the record, may write to it, and returns
an error that may be `nil`. -/
structure Net where
  Get : String → Except GoError Response
  Unmarshal : String → btcAddressData → btcAddressData × Option GoError

/-- The function `addressData`: the returned pair, and the calls made. -/
def addressData (n : Net) (address : String) :
    (btcAddressData × Option GoError) × List Call :=
  let data := btcAddressData.zero
  let url := Sprintf mempool [address]
  match n.Get url with
  | .error err => ((data, some err), [.Get url])
  | .ok resp =>
    match resp.Body with
    | .error err =>
      ((data, some (Errorf "mempool.space read body: %s" [err.msg])), [.Get url, .ReadAll])
    | .ok body =>
      if resp.StatusCode ≠ 200 then
        ((data, some (Errorf "mempool.space http status: %s" [body])), [.Get url, .ReadAll])
      else
        match n.Unmarshal body data with
        | (data, some err) =>
          ((data, some (Errorf "mempool.space response unmarshal: %s" [err.msg])),
            [.Get url, .ReadAll, .Unmarshal body])
        | (data, none) => ((data, none), [.Get url, .ReadAll, .Unmarshal body])

/-! ## Messages, commands and the text-input widget -/

/-- The key types of `tea` that the program names; `other` is any other key type. -/
inductive KeyType where
  | KeyCtrlC
  | KeyEsc
  | KeyEnter
  | other (code : Nat)
deriving DecidableEq, Repr

/-- The struct `tea.Key` (`tea.KeyMsg`). -/
structure Key where
  Typ : KeyType
  Runes : List Char
  Alt : Bool
deriving DecidableEq, Repr

/-- A `tea.Msg` by its dynamic type: a key message, a value implementing `error`
(which the case `errMsg` of the type switch matches), or anything else. -/
inductive Msg where
  | KeyMsg (k : Key)
  | errMsg (e : GoError)
  | other (tag : Nat)
deriving DecidableEq, Repr

/-- A `tea.Cmd` that is not `nil`: `tea.Quit`, or a command of the widget. -/
inductive Cmd where
  | Quit
  | widget (id : Nat)
deriving DecidableEq, Repr

/-- The struct `textinput.Model`: the exported fields the program assigns, and the
remaining fields `rest`. -/
structure TextModel (σ : Type) where
  Placeholder : String
  CharLimit : Int
  Width : Int
  rest : σ

/-- The functions of `bubbles/textinput` that the program calls. `Focus` has a pointer
receiver: it returns the widget as the call leaves it. -/
structure TextInput (σ : Type) where
  NewModel : TextModel σ
  Focus : TextModel σ → TextModel σ
  Value : TextModel σ → String
  Update : TextModel σ → Msg → TextModel σ × Option Cmd
  View : TextModel σ → String
  Blink : Cmd

/-! ## The two screens (`main.go` 66-183) -/

/-- The struct `model`: the input screen. -/
structure model (σ : Type) where
  textInput : TextModel σ
  err : Option GoError

/-- The struct `walletModel`: the result screen. -/
structure walletModel where
  passphrase : String
  address : String
  addressData : btcAddressData
deriving DecidableEq, Repr

/-- A `tea.Model` of this program, by its dynamic type. -/
inductive teaModel (σ : Type) where
  | input (m : model σ)
  | wallet (w : walletModel)

/-- The function `newModel`. -/
def newModel {σ : Type} (ti : TextInput σ) : model σ :=
  let t := ti.NewModel
  let t := { t with Placeholder := "brainwallet passphrase" }
  let t := ti.Focus t
  let t := { t with CharLimit := 156 }
  let t := { t with Width := 40 }
  { textInput := t, err := none }

/-- The method `model.Init`. -/
def model.Init {σ : Type} (ti : TextInput σ) (_m : model σ) : Option Cmd :=
  some ti.Blink

/-- The method `walletModel.Init`. -/
def walletModel.Init (_m : walletModel) : Option Cmd :=
  none

/-- The statements after the type switch of `model.Update`, reached by `break` and by
the messages no case returns for: the widget handles the message. -/
def model.forward {σ : Type} (ti : TextInput σ) (m : model σ) (msg : Msg)
    (calls : List Call) : (teaModel σ × Option Cmd) × List Call :=
  let r := ti.Update m.textInput msg
  ((.input { m with textInput := r.1 }, r.2), calls)

/-- The method `model.Update`: the returned pair, and the calls made. -/
def model.Update {σ Priv Pub : Type} (ti : TextInput σ) (c : Crypto Priv Pub) (n : Net)
    (m : model σ) (msg : Msg) : (teaModel σ × Option Cmd) × List Call :=
  match msg with
  | .KeyMsg k =>
    match k.Typ with
    | .KeyCtrlC => ((.input m, some .Quit), [])
    | .KeyEsc => ((.input m, some .Quit), [])
    | .KeyEnter =>
      let passphrase := ti.Value m.textInput
      match newAddress c passphrase with
      | ((_, some err), t1) => model.forward ti { m with err := some err } msg t1
      | ((address, none), t1) =>
        match addressData n address with
        | ((_, some err), t2) => model.forward ti { m with err := some err } msg (t1 ++ t2)
        | ((data, none), t2) =>
          ((.wallet { address := address, passphrase := passphrase, addressData := data },
            none), t1 ++ t2)
    | .other _ => model.forward ti m msg []
  | .errMsg e => ((.input { m with err := some e }, none), [])
  | .other _ => model.forward ti m msg []

/-- The method `model.View`. -/
def model.View {σ : Type} (ti : TextInput σ) (m : model σ) : String :=
  Sprintf "Enter wallet passphrase:\n\n%s\n\n%s" [ti.View m.textInput, "(esc to quit)"]
    ++ "\n"

/-- The method `walletModel.Update`: the returned pair, and the calls made. -/
def walletModel.Update {σ : Type} (ti : TextInput σ) (m : walletModel) (msg : Msg) :
    (teaModel σ × Option Cmd) × List Call :=
  match msg with
  | .KeyMsg k =>
    match k.Typ with
    | .KeyCtrlC => ((.wallet m, some .Quit), [])
    | .KeyEsc => ((.input (newModel ti), none), [])
    | _ => ((.wallet m, none), [])
  | _ => ((.wallet m, none), [])

/-- The call `Update` on a `tea.Model`, dispatched on its dynamic type. -/
def teaModel.Update {σ Priv Pub : Type} (ti : TextInput σ) (c : Crypto Priv Pub) (n : Net)
    (s : teaModel σ) (msg : Msg) : (teaModel σ × Option Cmd) × List Call :=
  match s with
  | .input m => model.Update ti c n m msg
  | .wallet w => walletModel.Update ti w msg

/-! ## A test double of the libraries

Canned stand-ins for the imported packages, used to run the program on concrete
inputs: they fix what the libraries answer, nothing of the program. -/

/-- A widget whose remaining state is the text typed so far. -/
def stubTextInput : TextInput String :=
  { NewModel := { Placeholder := "", CharLimit := 0, Width := 0, rest := "" }
    Focus := fun t => t
    Value := fun t => t.rest
    Update := fun t msg =>
      match msg with
      | .KeyMsg ⟨.other _, runes, _⟩ => ({ t with rest := t.rest ++ String.mk runes }, none)
      | _ => (t, none)
    View := fun t => "> " ++ t.rest
    Blink := .widget 0 }

/-- A digest that pads or cuts the input to 32 bytes, a derivation that rejects the
all-zero seed, and an encoder that always answers the same address. -/
def stubCrypto : Crypto (List UInt8) (List UInt8) :=
  { Sum256 := fun data => ⟨(data ++ List.replicate 32 0).take 32, by simp⟩
    NewBitcoinPrivKey := fun seed =>
      if seed.all (fun b => b == 0) then .error ⟨"invalid private key"⟩ else .ok seed
    PublicKey := fun priv => priv
    ToBTCAddress := fun _ => ("1JwSSubhmg6iPtRjtyqhUYYH7bZg3Lfy1T", none) }

/-- The stub libraries with a state of the process that every call changes (a count
of the calls made so far) and no result reads. -/
def countingCrypto : CryptoW Nat (List UInt8) (List UInt8) :=
  { Sum256 := fun data w => (stubCrypto.Sum256 data, w + 1)
    NewBitcoinPrivKey := fun seed w => (stubCrypto.NewBitcoinPrivKey seed, w + 1)
    PublicKey := stubCrypto.PublicKey
    ToBTCAddress := fun pub w => (stubCrypto.ToBTCAddress pub, w + 1) }

/-- Libraries that tell the byte sequence `b` from every other one: the digest of `b`
is all zeros and every other digest all ones, every seed is a key, and the encoder
answers "1" for the all-zero key and "3" otherwise. -/
def separating (b : List UInt8) : Crypto (List UInt8) (List UInt8) :=
  { Sum256 := fun data =>
      if data = b then ⟨List.replicate 32 0, by simp⟩ else ⟨List.replicate 32 1, by simp⟩
    NewBitcoinPrivKey := fun seed => .ok seed
    PublicKey := fun priv => priv
    ToBTCAddress := fun pub => (if pub = List.replicate 32 0 then "1" else "3", none) }

/-- The body the stub decoder understands. -/
def fundedBody : String :=
  "\x7b\"chain_stats\":\x7b\"funded_txo_sum\":5000,\"spent_txo_sum\":0\x7d\x7d"

/-- A service that answers every request with the given status and body, and a decoder
that understands one body. -/
def stubNet (status : Int) (body : String) : Net :=
  { Get := fun _ => .ok { StatusCode := status, Body := .ok body }
    Unmarshal := fun b data =>
      if b = fundedBody then
        ({ data with ChainStats := { FundedTxoSum := 5000, SpentTxoSum := 0 } }, none)
      else (data, some ⟨"unexpected end of JSON input"⟩) }

/-- The input screen of the stub widget after `text` was typed, with no error. -/
def typed (text : String) : model String :=
  { textInput := { Placeholder := "brainwallet passphrase", CharLimit := 156, Width := 40,
                   rest := text },
    err := none }

/-- The Enter key. -/
def enterKey : Msg := .KeyMsg { Typ := .KeyEnter, Runes := [], Alt := false }

/-- The Esc key. -/
def escKey : Msg := .KeyMsg { Typ := .KeyEsc, Runes := [], Alt := false }

/-- The input screen after a submit of "hunter2" that the service answered with 404. -/
def failedState : model String :=
  { typed "hunter2" with err := some ⟨"mempool.space http status: Address not found"⟩ }

/-! ## Formatting lemmas -/

/-- The request URL is the service's base followed by the address. -/
theorem Sprintf_mempool (a : String) :
    Sprintf mempool [a] = "https://mempool.space/api/address/" ++ a := by
  have h : sprintfChars mempool.data [a]
      = "https://mempool.space/api/address/".data ++ (a.data ++ []) := rfl
  apply String.ext
  simp [Sprintf, h]

/-- The error of a response that is not 200 is the fixed text followed by the body. -/
theorem Errorf_status (b : String) :
    Errorf "mempool.space http status: %s" [b] = ⟨"mempool.space http status: " ++ b⟩ := by
  have h : sprintfChars "mempool.space http status: %s".data [b]
      = "mempool.space http status: ".data ++ (b.data ++ []) := rfl
  simp only [Errorf, Sprintf, h]
  congr 1
  apply String.ext
  simp

/-- The format of `model.View`, filled in. -/
theorem Sprintf_view (v : String) :
    Sprintf "Enter wallet passphrase:\n\n%s\n\n%s" [v, "(esc to quit)"]
      = "Enter wallet passphrase:\n\n" ++ v ++ "\n\n(esc to quit)" := by
  have h : sprintfChars "Enter wallet passphrase:\n\n%s\n\n%s".data [v, "(esc to quit)"]
      = "Enter wallet passphrase:\n\n".data ++ (v.data ++ "\n\n(esc to quit)".data) := rfl
  apply String.ext
  simp [Sprintf, h]

/-! ## The pipeline and the lookup, call by call -/

/-- The pipeline never calls the balance service. -/
theorem newAddress_calls_no_lookup {Priv Pub : Type} (c : Crypto Priv Pub) (P : String) :
    ∀ call ∈ (newAddress c P).2, call.isLookup = false := by
  intro call hcall
  unfold newAddress at hcall
  dsimp only at hcall
  split at hcall
  · simp at hcall
    rcases hcall with h | h <;> subst h <;> rfl
  · simp at hcall
    rcases hcall with h | h | h <;> subst h <;> rfl

/-! ## C2: the derivation pipeline -/

/-- C2: for every passphrase, the empty one included, `newAddress` first hashes the raw
bytes of the passphrase into a 32-byte seed and hands exactly that seed to the key
derivation; when the derivation rejects the seed the result is the empty address with
that error and the encoder is not called; otherwise the result is the encoder's result
for the public key of the derived key. An error can only come from one of the two. -/
theorem newAddress_pipeline {Priv Pub : Type} (c : Crypto Priv Pub) (P : String) :
    (c.Sum256 (bytesOf P)).val.length = 32
    ∧ bytesOf "" = []
    ∧ (∃ rest, (newAddress c P).2
        = Call.Sum256 (bytesOf P) :: Call.NewBitcoinPrivKey (c.Sum256 (bytesOf P)).val :: rest)
    ∧ (∀ e, c.NewBitcoinPrivKey (c.Sum256 (bytesOf P)).val = .error e →
        (newAddress c P).1 = ("", some e)
        ∧ ∀ call ∈ (newAddress c P).2, call.isEncoder = false)
    ∧ (∀ priv, c.NewBitcoinPrivKey (c.Sum256 (bytesOf P)).val = .ok priv →
        (newAddress c P).1 = c.ToBTCAddress (c.PublicKey priv)
        ∧ Call.ToBTCAddress ∈ (newAddress c P).2)
    ∧ (∀ e, (newAddress c P).1.2 = some e →
        c.NewBitcoinPrivKey (c.Sum256 (bytesOf P)).val = .error e
        ∨ ∃ priv, c.NewBitcoinPrivKey (c.Sum256 (bytesOf P)).val = .ok priv
            ∧ (c.ToBTCAddress (c.PublicKey priv)).2 = some e) := by
  refine ⟨(c.Sum256 (bytesOf P)).property, rfl, ?_, ?_, ?_, ?_⟩
  · unfold newAddress
    dsimp only
    split
    · exact ⟨[], rfl⟩
    · exact ⟨[Call.ToBTCAddress], rfl⟩
  · intro e he
    unfold newAddress
    dsimp only
    rw [he]
    refine ⟨rfl, ?_⟩
    intro call hcall
    simp at hcall
    rcases hcall with h | h <;> subst h <;> rfl
  · intro priv hp
    unfold newAddress
    dsimp only
    rw [hp]
    exact ⟨rfl, by simp⟩
  · intro e he
    unfold newAddress at he
    dsimp only at he
    split at he
    · next err herr =>
      left
      simp at he
      rw [herr, he]
    · next priv hpriv =>
      right
      exact ⟨priv, hpriv, he⟩

/-- The pipeline on the empty passphrase (the stub derivation rejects its seed) and on
"correct horse" (accepted). -/
theorem newAddress_pipeline_witness :
    newAddress stubCrypto "" = (("", some ⟨"invalid private key"⟩),
      [Call.Sum256 [], Call.NewBitcoinPrivKey (List.replicate 32 0)])
    ∧ (newAddress stubCrypto "correct horse").1 = ("1JwSSubhmg6iPtRjtyqhUYYH7bZg3Lfy1T", none) :=
  ⟨Prod.ext ((newAddress_pipeline stubCrypto "").2.2.2.1 ⟨"invalid private key"⟩ rfl).1 rfl,
   ((newAddress_pipeline stubCrypto "correct horse").2.2.2.2.1 _ rfl).1⟩

/-! ## C3: the balance record -/

/-- C3: `hasTransactions` is true exactly when `FundedTxoSum > 0`, whatever
`SpentTxoSum` and `Address` are; funded 5000, spent 0 gives true and funded 0, spent 0
gives false. -/
theorem hasTransactions_iff_funded (d : btcAddressData) :
    (d.hasTransactions = true ↔ d.ChainStats.FundedTxoSum > 0)
    ∧ (∀ (a : String) (s : Int),
        btcAddressData.hasTransactions ⟨a, ⟨d.ChainStats.FundedTxoSum, s⟩⟩ = d.hasTransactions)
    ∧ btcAddressData.hasTransactions ⟨d.Address, ⟨5000, 0⟩⟩ = true
    ∧ btcAddressData.hasTransactions ⟨d.Address, ⟨0, 0⟩⟩ = false := by
  refine ⟨?_, ?_, ?_, ?_⟩
  · simp [btcAddressData.hasTransactions]
  · intro a s
    rfl
  · simp [btcAddressData.hasTransactions]
  · simp [btcAddressData.hasTransactions]

/-! ## C4: a response that is not 200 -/

/-- C4: when the service answers with a status code other than 200, `addressData`
returns a non-nil error and the zero-value record, never success; when the body was
read, the error is "mempool.space http status: " followed by the body, and the body is
not decoded, whatever it contains. -/
theorem addressData_non200 (n : Net) (address : String) (resp : Response)
    (hget : n.Get ("https://mempool.space/api/address/" ++ address) = .ok resp)
    (hstatus : resp.StatusCode ≠ 200) :
    (addressData n address).1.1 = btcAddressData.zero
    ∧ (addressData n address).1.2 ≠ none
    ∧ (∀ body, resp.Body = .ok body →
        (addressData n address).1
          = (btcAddressData.zero, some ⟨"mempool.space http status: " ++ body⟩)
        ∧ (addressData n address).2
          = [Call.Get ("https://mempool.space/api/address/" ++ address), Call.ReadAll]) := by
  unfold addressData
  simp only [Sprintf_mempool, hget]
  cases hb : resp.Body with
  | error err => simp
  | ok body =>
    simp only [hstatus, ne_eq, not_false_eq_true, if_true, Errorf_status]
    simp

/-- A 404 answer whose body is a well-formed balance record is an error all the same. -/
theorem addressData_non200_witness :
    (addressData (stubNet 404 fundedBody) "1JwSSubhmg6iPtRjtyqhUYYH7bZg3Lfy1T").1
      = (btcAddressData.zero,
          some ⟨"mempool.space http status: "
            ++ "\x7b\"chain_stats\":\x7b\"funded_txo_sum\":5000,\"spent_txo_sum\":0\x7d\x7d"⟩) :=
  ((addressData_non200 (stubNet 404 fundedBody) "1JwSSubhmg6iPtRjtyqhUYYH7bZg3Lfy1T"
      { StatusCode := 404, Body := .ok fundedBody } rfl (by decide)).2.2 fundedBody rfl).1

/-! ## C5: the submit transition -/

/-- The result of Enter on the input screen, by the outcome of the two stages. -/
theorem model_Update_enter {σ Priv Pub : Type} (ti : TextInput σ) (c : Crypto Priv Pub)
    (n : Net) (m : model σ) (runes : List Char) (alt : Bool) :
    model.Update ti c n m (.KeyMsg ⟨.KeyEnter, runes, alt⟩)
      = match (newAddress c (ti.Value m.textInput)).1.2 with
        | some e =>
          model.forward ti { m with err := some e } (.KeyMsg ⟨.KeyEnter, runes, alt⟩)
            (newAddress c (ti.Value m.textInput)).2
        | none =>
          match (addressData n (newAddress c (ti.Value m.textInput)).1.1).1.2 with
          | some e =>
            model.forward ti { m with err := some e } (.KeyMsg ⟨.KeyEnter, runes, alt⟩)
              ((newAddress c (ti.Value m.textInput)).2
                ++ (addressData n (newAddress c (ti.Value m.textInput)).1.1).2)
          | none =>
            ((.wallet
                { address := (newAddress c (ti.Value m.textInput)).1.1,
                  passphrase := ti.Value m.textInput,
                  addressData := (addressData n (newAddress c (ti.Value m.textInput)).1.1).1.1 },
              none),
              (newAddress c (ti.Value m.textInput)).2
                ++ (addressData n (newAddress c (ti.Value m.textInput)).1.1).2) := by
  simp only [model.Update]
  rcases hA : newAddress c (ti.Value m.textInput) with ⟨⟨a, ea⟩, t1⟩
  cases ea with
  | some e => rfl
  | none =>
    dsimp only
    rcases hD : addressData n a with ⟨⟨d, ed⟩, t2⟩
    cases ed with
    | some e => rfl
    | none => rfl

/-- C5: on Enter, the input screen holding passphrase `P` becomes the result screen with
address `A` and balance data `D` exactly when `newAddress P` succeeds with `A` and
`addressData A` succeeds with `D`; when `newAddress` fails no lookup call is made; when
either stage fails the result is the input screen with `err` set to that stage's error,
never the result screen. -/
theorem submit_transition {σ Priv Pub : Type} (ti : TextInput σ) (c : Crypto Priv Pub)
    (n : Net) (m : model σ) (runes : List Char) (alt : Bool) :
    (∀ w : walletModel,
        (model.Update ti c n m (.KeyMsg ⟨.KeyEnter, runes, alt⟩)).1.1 = .wallet w ↔
          (w.passphrase = ti.Value m.textInput
            ∧ (newAddress c (ti.Value m.textInput)).1 = (w.address, none)
            ∧ (addressData n w.address).1 = (w.addressData, none)))
    ∧ (∀ a e, (newAddress c (ti.Value m.textInput)).1 = (a, some e) →
        (model.Update ti c n m (.KeyMsg ⟨.KeyEnter, runes, alt⟩)).1.1
            = .input { textInput := (ti.Update m.textInput (.KeyMsg ⟨.KeyEnter, runes, alt⟩)).1,
                       err := some e }
        ∧ (model.Update ti c n m (.KeyMsg ⟨.KeyEnter, runes, alt⟩)).2
            = (newAddress c (ti.Value m.textInput)).2
        ∧ ∀ call ∈ (model.Update ti c n m (.KeyMsg ⟨.KeyEnter, runes, alt⟩)).2,
            call.isLookup = false)
    ∧ (∀ A d e, (newAddress c (ti.Value m.textInput)).1 = (A, none) →
        (addressData n A).1 = (d, some e) →
        (model.Update ti c n m (.KeyMsg ⟨.KeyEnter, runes, alt⟩)).1.1
            = .input { textInput := (ti.Update m.textInput (.KeyMsg ⟨.KeyEnter, runes, alt⟩)).1,
                       err := some e }) := by
  rw [model_Update_enter]
  rcases hA : newAddress c (ti.Value m.textInput) with ⟨⟨a, ea⟩, t1⟩
  have hno := newAddress_calls_no_lookup c (ti.Value m.textInput)
  rw [hA] at hno
  cases ea with
  | some e =>
    refine ⟨?_, ?_, ?_⟩
    · intro w
      simp [model.forward]
    · intro a' e' h
      simp only [Prod.mk.injEq, Option.some.injEq] at h
      obtain ⟨-, rfl⟩ := h
      exact ⟨rfl, rfl, hno⟩
    · intro A d e' h
      simp at h
  | none =>
    dsimp only
    rcases hD : addressData n a with ⟨⟨d, ed⟩, t2⟩
    cases ed with
    | some e =>
      refine ⟨?_, ?_, ?_⟩
      · intro w
        constructor
        · intro h
          simp [model.forward] at h
        · rintro ⟨-, h2, h3⟩
          simp only [Prod.mk.injEq, and_true] at h2
          rw [← h2, hD] at h3
          simp at h3
      · intro a' e' h
        simp at h
      · intro A d' e' h1 h2
        simp only [Prod.mk.injEq, and_true] at h1
        subst h1
        rw [hD] at h2
        simp only [Prod.mk.injEq, Option.some.injEq] at h2
        obtain ⟨-, rfl⟩ := h2
        rfl
    | none =>
      refine ⟨?_, ?_, ?_⟩
      · intro w
        constructor
        · intro h
          simp only [teaModel.wallet.injEq] at h
          subst h
          simp [hD]
        · rintro ⟨h1, h2, h3⟩
          simp only [Prod.mk.injEq, and_true] at h2
          rw [← h2, hD] at h3
          simp only [Prod.mk.injEq, and_true] at h3
          cases w
          simp_all
      · intro a' e' h
        simp at h
      · intro A d' e' h1 h2
        simp only [Prod.mk.injEq, and_true] at h1
        subst h1
        rw [hD] at h2
        simp at h2

/-- A submit where both stages succeed, and one where the derivation fails. -/
theorem submit_transition_witness :
    (model.Update stubTextInput stubCrypto (stubNet 200 fundedBody) (typed "hunter2")
        enterKey).1.1
      = .wallet { passphrase := "hunter2", address := "1JwSSubhmg6iPtRjtyqhUYYH7bZg3Lfy1T",
                  addressData := { Address := "", ChainStats := ⟨5000, 0⟩ } }
    ∧ (model.Update stubTextInput stubCrypto (stubNet 200 fundedBody) (typed "")
        enterKey).1.1
      = .input { typed "" with err := some ⟨"invalid private key"⟩ } :=
  ⟨((submit_transition stubTextInput stubCrypto (stubNet 200 fundedBody) (typed "hunter2")
      [] false).1 _).mpr ⟨rfl, rfl, rfl⟩,
   ((submit_transition stubTextInput stubCrypto (stubNet 200 fundedBody) (typed "")
      [] false).2.1 "" ⟨"invalid private key"⟩ rfl).1⟩

/-- The result screen is reached by a submit only, and holds what the two stages
returned. -/
theorem model_Update_wallet {σ Priv Pub : Type} (ti : TextInput σ) (c : Crypto Priv Pub)
    (n : Net) (m : model σ) (msg : Msg) (w : walletModel)
    (h : (model.Update ti c n m msg).1.1 = .wallet w) :
    w.passphrase = ti.Value m.textInput
    ∧ (newAddress c (ti.Value m.textInput)).1 = (w.address, none)
    ∧ (addressData n w.address).1 = (w.addressData, none) := by
  cases msg with
  | errMsg e => simp [model.Update] at h
  | other tag => simp [model.Update, model.forward] at h
  | KeyMsg k =>
    rcases k with ⟨typ, runes, alt⟩
    cases typ with
    | KeyCtrlC => simp [model.Update] at h
    | KeyEsc => simp [model.Update] at h
    | other code => simp [model.Update, model.forward] at h
    | KeyEnter =>
      rw [model_Update_enter] at h
      revert h
      rcases hA : newAddress c (ti.Value m.textInput) with ⟨⟨a, ea⟩, t1⟩
      cases ea with
      | some e => simp [model.forward]
      | none =>
        dsimp only
        rcases hD : addressData n a with ⟨⟨d, ed⟩, t2⟩
        cases ed with
        | some e => simp [model.forward]
        | none =>
          intro h
          simp only [teaModel.wallet.injEq] at h
          subst h
          simp [hD]

/-- With libraries whose results do not read the state of the process, the result of
`newAddress` is fixed by the digest of the raw bytes of the passphrase. -/
theorem newAddressW_of_digest {ω Priv Pub : Type} (c : CryptoW ω Priv Pub)
    (hK : ∀ s w w', (c.NewBitcoinPrivKey s w).1 = (c.NewBitcoinPrivKey s w').1)
    (hE : ∀ p w w', (c.ToBTCAddress p w).1 = (c.ToBTCAddress p w').1)
    (P Q : String) (w w' : ω)
    (h : (c.Sum256 (bytesOf P) w).1 = (c.Sum256 (bytesOf Q) w').1) :
    (newAddressW c P w).1 = (newAddressW c Q w').1 := by
  unfold newAddressW
  dsimp only
  rw [h, hK _ (c.Sum256 (bytesOf P) w).2 (c.Sum256 (bytesOf Q) w').2]
  cases (c.NewBitcoinPrivKey (c.Sum256 (bytesOf Q) w').1.val (c.Sum256 (bytesOf Q) w').2).1 with
  | error err => rfl
  | ok priv => exact hE _ _ _

/-- The separating libraries give the passphrase with bytes `b` the address "1" and
every passphrase with other bytes the address "3". -/
theorem newAddress_separating (P Q : String) (h : bytesOf P ≠ bytesOf Q) :
    (newAddress (separating (bytesOf P)) P).1 = ("1", none)
    ∧ (newAddress (separating (bytesOf P)) Q).1 = ("3", none) := by
  have hQ : ¬ bytesOf Q = bytesOf P := fun e => h e.symm
  constructor
  · simp [newAddress, separating]
  · simp [newAddress, separating, hQ]

/-! ## C1: determinism of the derivation -/

/-- C1: `newAddress` is deterministic. Let every library call be free to read and change
the state of the process (random source, clock, package variables), and assume only
that the three library functions do not let that state into their results. Then two
calls of `newAddress` on `P` return the same (address, error) pair from any two states,
in particular the second call from the state the first one left; the pair is fixed by
the digest of the raw bytes of `P`; it is the pair of `newAddress` over libraries that
are plain functions; the program does no normalization: a passphrase with other bytes
than `P`, however close, gets another result under libraries that separate the two;
and in the session the address of a result screen reached from an input screen holding
`P` is that of `newAddress P`, whatever the screen's other state and the answers of the
service. -/
theorem newAddress_deterministic {ω Priv Pub : Type} (c : CryptoW ω Priv Pub) (P : String)
    (hS : ∀ d w w', (c.Sum256 d w).1 = (c.Sum256 d w').1)
    (hK : ∀ s w w', (c.NewBitcoinPrivKey s w).1 = (c.NewBitcoinPrivKey s w').1)
    (hE : ∀ p w w', (c.ToBTCAddress p w).1 = (c.ToBTCAddress p w').1) :
    (∀ w w', (newAddressW c P w).1 = (newAddressW c P w').1)
    ∧ (∀ w, (newAddressW c P (newAddressW c P w).2).1 = (newAddressW c P w).1)
    ∧ (∀ Q w w', (c.Sum256 (bytesOf P) w).1 = (c.Sum256 (bytesOf Q) w').1 →
        (newAddressW c P w).1 = (newAddressW c Q w').1)
    ∧ (∀ (c₀ : Crypto Priv Pub) (w : ω),
        (newAddressW (c₀.toW ω) P w).1 = (newAddress c₀ P).1)
    ∧ (∀ Q, bytesOf P ≠ bytesOf Q →
        ∃ c' : Crypto (List UInt8) (List UInt8), (newAddress c' P).1 ≠ (newAddress c' Q).1)
    ∧ (∀ (σ : Type) (ti : TextInput σ) (c₀ : Crypto Priv Pub) (n₁ n₂ : Net)
        (m₁ m₂ : model σ) (msg₁ msg₂ : Msg) (w₁ w₂ : walletModel),
        ti.Value m₁.textInput = P → ti.Value m₂.textInput = P →
        (model.Update ti c₀ n₁ m₁ msg₁).1.1 = .wallet w₁ →
        (model.Update ti c₀ n₂ m₂ msg₂).1.1 = .wallet w₂ →
        w₁.address = (newAddress c₀ P).1.1 ∧ w₂.address = w₁.address) := by
  refine ⟨?_, ?_, ?_, ?_, ?_, ?_⟩
  · intro w w'
    exact newAddressW_of_digest c hK hE P P w w' (hS _ _ _)
  · intro w
    exact newAddressW_of_digest c hK hE P P _ w (hS _ _ _)
  · intro Q w w' h
    exact newAddressW_of_digest c hK hE P Q w w' h
  · intro c₀ w
    unfold newAddressW newAddress Crypto.toW
    dsimp only
    cases c₀.NewBitcoinPrivKey (c₀.Sum256 (bytesOf P)).val with
    | error err => rfl
    | ok priv => rfl
  · intro Q h
    refine ⟨separating (bytesOf P), ?_⟩
    obtain ⟨h1, h2⟩ := newAddress_separating P Q h
    rw [h1, h2]
    decide
  · intro σ ti c₀ n₁ n₂ m₁ m₂ msg₁ msg₂ w₁ w₂ hv₁ hv₂ h₁ h₂
    obtain ⟨-, a₁, -⟩ := model_Update_wallet ti c₀ n₁ m₁ msg₁ w₁ h₁
    obtain ⟨-, a₂, -⟩ := model_Update_wallet ti c₀ n₂ m₂ msg₂ w₂ h₂
    rw [hv₁] at a₁
    rw [hv₂] at a₂
    rw [a₁] at a₂
    simp only [Prod.mk.injEq, and_true] at a₂
    exact ⟨by rw [a₁], a₂.symm⟩

/-- Two calls in a row on "correct horse" over libraries that change the state of the
process at every call; and "HUNTER2" against "hunter2": the case of the passphrase
is not normalized away. -/
theorem newAddress_deterministic_witness :
    (newAddressW countingCrypto "correct horse"
        (newAddressW countingCrypto "correct horse" 0).2).1
      = (newAddressW countingCrypto "correct horse" 0).1
    ∧ (newAddressW countingCrypto "correct horse" 0).2 = 3
    ∧ ∃ c' : Crypto (List UInt8) (List UInt8),
        (newAddress c' "HUNTER2").1 ≠ (newAddress c' "hunter2").1 :=
  ⟨(newAddress_deterministic countingCrypto "correct horse" (fun _ _ _ => rfl)
      (fun _ _ _ => rfl) (fun _ _ _ => rfl)).2.1 0,
   rfl,
   (newAddress_deterministic countingCrypto "HUNTER2" (fun _ _ _ => rfl)
      (fun _ _ _ => rfl) (fun _ _ _ => rfl)).2.2.2.2.1 "hunter2" (by decide)⟩

/-! ## C6, C8: the result screen -/

/-- C6: on Esc the result screen, whatever its address, passphrase and balance data,
returns exactly `newModel()` with no command and without any call; that state has no
error, is the same for every result screen it is reached from, and its text input is
empty as soon as the widget library builds an empty widget and keeps the text outside the
exported fields and unchanged by `Focus`. -/
theorem reset_from_resolved {σ : Type} (ti : TextInput σ) (w : walletModel)
    (runes : List Char) (alt : Bool)
    (hnew : ti.Value ti.NewModel = "")
    (hfocus : ∀ t, ti.Value (ti.Focus t) = ti.Value t)
    (hrest : ∀ t t' : TextModel σ, t.rest = t'.rest → ti.Value t = ti.Value t') :
    walletModel.Update ti w (.KeyMsg ⟨.KeyEsc, runes, alt⟩)
      = ((.input (newModel ti), none), [])
    ∧ (newModel ti).err = none
    ∧ ti.Value (newModel ti).textInput = ""
    ∧ (∀ w' : walletModel,
        walletModel.Update ti w' (.KeyMsg ⟨.KeyEsc, runes, alt⟩)
          = walletModel.Update ti w (.KeyMsg ⟨.KeyEsc, runes, alt⟩)) := by
  refine ⟨rfl, rfl, ?_, fun _ => rfl⟩
  have h1 : ti.Value (newModel ti).textInput
      = ti.Value (ti.Focus { ti.NewModel with Placeholder := "brainwallet passphrase" }) :=
    hrest _ _ rfl
  have h2 : ti.Value { ti.NewModel with Placeholder := "brainwallet passphrase" }
      = ti.Value ti.NewModel :=
    hrest _ _ rfl
  exact h1.trans ((hfocus _).trans (h2.trans hnew))

/-- Esc on a result screen, with the stub widget. -/
theorem reset_from_resolved_witness :
    walletModel.Update stubTextInput
        { passphrase := "hunter2", address := "1JwSSubhmg6iPtRjtyqhUYYH7bZg3Lfy1T",
          addressData := { Address := "", ChainStats := ⟨5000, 0⟩ } } escKey
      = ((.input (typed ""), none), [])
    ∧ stubTextInput.Value (newModel stubTextInput).textInput = "" :=
  ⟨(reset_from_resolved stubTextInput _ [] false rfl (fun _ => rfl)
      (fun _ _ h => h)).1,
   (reset_from_resolved stubTextInput
      { passphrase := "hunter2", address := "1JwSSubhmg6iPtRjtyqhUYYH7bZg3Lfy1T",
        addressData := { Address := "", ChainStats := ⟨5000, 0⟩ } } [] false rfl
      (fun _ => rfl) (fun _ _ h => h)).2.2.1⟩

/-- C8: the result screen ignores every message that is not the Ctrl-C or the Esc key,
the Enter key included: `walletModel.Update` returns the same screen, no command, and
makes no call to the derivation pipeline or to the balance service, whatever those
would answer. -/
theorem resolved_ignores_submit {σ Priv Pub : Type} (ti : TextInput σ)
    (c : Crypto Priv Pub) (n : Net) (w : walletModel) (msg : Msg)
    (hmsg : ∀ k, msg = .KeyMsg k → k.Typ ≠ .KeyCtrlC ∧ k.Typ ≠ .KeyEsc) :
    walletModel.Update ti w msg = ((.wallet w, none), [])
    ∧ teaModel.Update ti c n (.wallet w) msg = ((.wallet w, none), []) := by
  have h : walletModel.Update ti w msg = ((.wallet w, none), []) := by
    cases msg with
    | KeyMsg k =>
      obtain ⟨h1, h2⟩ := hmsg k rfl
      rcases k with ⟨typ, runes, alt⟩
      cases typ with
      | KeyCtrlC => exact absurd rfl h1
      | KeyEsc => exact absurd rfl h2
      | KeyEnter => rfl
      | other code => rfl
    | errMsg e => rfl
    | other tag => rfl
  exact ⟨h, h⟩

/-- Enter on a result screen. -/
theorem resolved_ignores_submit_witness :
    walletModel.Update stubTextInput
        { passphrase := "hunter2", address := "1JwSSubhmg6iPtRjtyqhUYYH7bZg3Lfy1T",
          addressData := { Address := "", ChainStats := ⟨5000, 0⟩ } } enterKey
      = ((.wallet { passphrase := "hunter2", address := "1JwSSubhmg6iPtRjtyqhUYYH7bZg3Lfy1T",
                    addressData := { Address := "", ChainStats := ⟨5000, 0⟩ } }, none), []) :=
  (resolved_ignores_submit stubTextInput stubCrypto (stubNet 200 fundedBody) _ enterKey
    (by intro k hk; cases hk; exact ⟨by decide, by decide⟩)).1

/-! ## C7: Esc on the input screen -/

/-- C7, as stated, fails: the input screen left by a failed submit of "hunter2" (the
service answered 404) answers Esc with the same screen, error still recorded, and the
command `tea.Quit`; so it is not the case that Esc yields an input screen with no
error and does not quit. -/
theorem esc_after_failure_quits :
    (model.Update stubTextInput stubCrypto (stubNet 404 "Address not found")
        (typed "hunter2") enterKey).1.1 = .input failedState
    ∧ failedState.err = some ⟨"mempool.space http status: Address not found"⟩
    ∧ (model.Update stubTextInput stubCrypto (stubNet 404 "Address not found")
        failedState escKey).1 = (.input failedState, some Cmd.Quit)
    ∧ ¬ (∃ m', (model.Update stubTextInput stubCrypto (stubNet 404 "Address not found")
            failedState escKey).1.1 = .input m'
          ∧ m'.err = none
          ∧ (model.Update stubTextInput stubCrypto (stubNet 404 "Address not found")
            failedState escKey).1.2 ≠ some Cmd.Quit) := by
  refine ⟨rfl, rfl, rfl, ?_⟩
  rintro ⟨m', -, -, h⟩
  exact h rfl

/-- C7, amended: on Esc the input screen, with or without a recorded error, returns
itself unchanged (the error stays recorded) together with `tea.Quit`, and makes no call.
The input screen has no reset event: once an error is recorded, no message leads to an
input screen without one. It needs none: every message that is not the Ctrl-C, Esc or
Enter key or an error message goes to the text-input widget, whose result is kept next
to the recorded error; and Enter does exactly what it does with no error recorded, so it
leads to the result screen when both stages succeed. -/
theorem esc_on_input_quits {σ Priv Pub : Type} (ti : TextInput σ) (c : Crypto Priv Pub)
    (n : Net) (m : model σ) (runes : List Char) (alt : Bool) :
    model.Update ti c n m (.KeyMsg ⟨.KeyEsc, runes, alt⟩) = ((.input m, some .Quit), [])
    ∧ (m.err ≠ none → ∀ (msg : Msg) (m' : model σ),
        (model.Update ti c n m msg).1.1 = .input m' → m'.err ≠ none)
    ∧ (∀ msg : Msg, (∀ k, msg = .KeyMsg k → ∃ code, k.Typ = .other code) →
        (∀ e, msg ≠ .errMsg e) →
        model.Update ti c n m msg
          = ((.input { textInput := (ti.Update m.textInput msg).1, err := m.err },
              (ti.Update m.textInput msg).2), []))
    ∧ (∀ e : Option GoError,
        model.Update ti c n { m with err := e } (.KeyMsg ⟨.KeyEnter, runes, alt⟩)
          = model.Update ti c n { m with err := none } (.KeyMsg ⟨.KeyEnter, runes, alt⟩))
    ∧ (∀ (A : String) (D : btcAddressData),
        (newAddress c (ti.Value m.textInput)).1 = (A, none) →
        (addressData n A).1 = (D, none) →
        (model.Update ti c n m (.KeyMsg ⟨.KeyEnter, runes, alt⟩)).1
          = (.wallet { passphrase := ti.Value m.textInput, address := A, addressData := D },
              none)) := by
  refine ⟨rfl, ?_, ?_, ?_, ?_⟩
  · intro herr msg m' h
    cases msg with
    | errMsg e =>
      simp only [model.Update, teaModel.input.injEq] at h
      subst h
      simp
    | other tag =>
      simp only [model.Update, model.forward, teaModel.input.injEq] at h
      subst h
      exact herr
    | KeyMsg k =>
      rcases k with ⟨typ, runes', alt'⟩
      cases typ with
      | KeyCtrlC =>
        simp only [model.Update, teaModel.input.injEq] at h
        subst h
        exact herr
      | KeyEsc =>
        simp only [model.Update, teaModel.input.injEq] at h
        subst h
        exact herr
      | other code =>
        simp only [model.Update, model.forward, teaModel.input.injEq] at h
        subst h
        exact herr
      | KeyEnter =>
        rw [model_Update_enter] at h
        revert h
        cases (newAddress c (ti.Value m.textInput)).1.2 with
        | some e =>
          simp only [model.forward, teaModel.input.injEq]
          intro h
          subst h
          simp
        | none =>
          dsimp only
          cases (addressData n (newAddress c (ti.Value m.textInput)).1.1).1.2 with
          | some e =>
            simp only [model.forward, teaModel.input.injEq]
            intro h
            subst h
            simp
          | none => simp
  · intro msg hkey herrmsg
    cases msg with
    | errMsg e => exact absurd rfl (herrmsg e)
    | other tag => rfl
    | KeyMsg k =>
      obtain ⟨code, hcode⟩ := hkey k rfl
      rcases k with ⟨typ, runes', alt'⟩
      simp only at hcode
      subst hcode
      rfl
  · intro e
    rw [model_Update_enter, model_Update_enter]
  · intro A D hA hD
    rw [model_Update_enter]
    have hA1 : (newAddress c (ti.Value m.textInput)).1.1 = A := by rw [hA]
    have hA2 : (newAddress c (ti.Value m.textInput)).1.2 = none := by rw [hA]
    rw [hA2]
    dsimp only
    rw [hA1]
    have hD1 : (addressData n A).1.1 = D := by rw [hD]
    have hD2 : (addressData n A).1.2 = none := by rw [hD]
    rw [hD2]
    dsimp only
    rw [hD1]

/-- On the input screen left by a failed submit: Esc quits, a typed rune reaches the
widget and the error stays recorded, and Enter leads to the result screen. -/
theorem esc_on_input_quits_witness :
    model.Update stubTextInput stubCrypto (stubNet 200 fundedBody) failedState escKey
      = ((.input failedState, some .Quit), [])
    ∧ model.Update stubTextInput stubCrypto (stubNet 200 fundedBody) failedState
        (.KeyMsg ⟨.other 0, ['x'], false⟩)
      = ((.input { typed "hunter2x" with err := failedState.err }, none), [])
    ∧ (model.Update stubTextInput stubCrypto (stubNet 200 fundedBody) failedState
        enterKey).1
      = (.wallet { passphrase := "hunter2", address := "1JwSSubhmg6iPtRjtyqhUYYH7bZg3Lfy1T",
                   addressData := { Address := "", ChainStats := ⟨5000, 0⟩ } }, none) :=
  ⟨(esc_on_input_quits stubTextInput stubCrypto (stubNet 200 fundedBody) failedState
      [] false).1,
   (esc_on_input_quits stubTextInput stubCrypto (stubNet 200 fundedBody) failedState
      [] false).2.2.1 (.KeyMsg ⟨.other 0, ['x'], false⟩)
      (fun k hk => by cases hk; exact ⟨0, rfl⟩) (fun e h => by cases h),
   (esc_on_input_quits stubTextInput stubCrypto (stubNet 200 fundedBody) failedState
      [] false).2.2.2.2 _ _ rfl rfl⟩

/-! ## C9: what the result screen holds -/

/-- C9, as stated, fails: the result screen reached by submitting "hunter2" holds
"hunter2" in its field `passphrase`; and with an encoder that gives "hunter2" and
"letmein" the same address (and the same balance data) the two result screens differ. -/
theorem resolved_retains_passphrase :
    (model.Update stubTextInput stubCrypto (stubNet 200 fundedBody) (typed "hunter2")
        enterKey).1.1
      = .wallet { passphrase := "hunter2", address := "1JwSSubhmg6iPtRjtyqhUYYH7bZg3Lfy1T",
                  addressData := { Address := "", ChainStats := ⟨5000, 0⟩ } }
    ∧ (model.Update stubTextInput stubCrypto (stubNet 200 fundedBody) (typed "letmein")
        enterKey).1.1
      = .wallet { passphrase := "letmein", address := "1JwSSubhmg6iPtRjtyqhUYYH7bZg3Lfy1T",
                  addressData := { Address := "", ChainStats := ⟨5000, 0⟩ } }
    ∧ ¬ (∀ w₁ w₂ : walletModel,
          (model.Update stubTextInput stubCrypto (stubNet 200 fundedBody) (typed "hunter2")
              enterKey).1.1 = .wallet w₁ →
          (model.Update stubTextInput stubCrypto (stubNet 200 fundedBody) (typed "letmein")
              enterKey).1.1 = .wallet w₂ →
          w₁.address = w₂.address → w₁.addressData = w₂.addressData → w₁ = w₂) := by
  refine ⟨rfl, rfl, ?_⟩
  intro h
  have h' := h _ _ rfl rfl rfl rfl
  exact absurd h' (by decide)

/-- C9, amended: for every successful submit of passphrase `P`, the resulting result
screen holds the address, the balance data and, in its field `passphrase`, `P` itself;
two submits that yield the same address and balance data produce equal result screens
exactly when the passphrases are equal. -/
theorem resolved_holds_passphrase {σ Priv Pub : Type} (ti : TextInput σ)
    (c : Crypto Priv Pub) (n₁ n₂ : Net) (m₁ m₂ : model σ) (k₁ k₂ : Key)
    (w₁ w₂ : walletModel)
    (h₁ : (model.Update ti c n₁ m₁ (.KeyMsg k₁)).1.1 = .wallet w₁)
    (h₂ : (model.Update ti c n₂ m₂ (.KeyMsg k₂)).1.1 = .wallet w₂) :
    w₁.passphrase = ti.Value m₁.textInput
    ∧ w₁.address = (newAddress c (ti.Value m₁.textInput)).1.1
    ∧ w₁.addressData = (addressData n₁ w₁.address).1.1
    ∧ (w₁.address = w₂.address → w₁.addressData = w₂.addressData →
        (w₁ = w₂ ↔ ti.Value m₁.textInput = ti.Value m₂.textInput)) := by
  have key : ∀ (n : Net) (m : model σ) (k : Key) (w : walletModel),
      (model.Update ti c n m (.KeyMsg k)).1.1 = .wallet w →
        w.passphrase = ti.Value m.textInput
        ∧ (newAddress c (ti.Value m.textInput)).1 = (w.address, none)
        ∧ (addressData n w.address).1 = (w.addressData, none) := by
    intro n m k w h
    rcases k with ⟨typ, runes, alt⟩
    cases typ with
    | KeyCtrlC => simp [model.Update] at h
    | KeyEsc => simp [model.Update] at h
    | KeyEnter =>
      rw [model_Update_enter] at h
      revert h
      rcases hA : newAddress c (ti.Value m.textInput) with ⟨⟨a, ea⟩, t1⟩
      cases ea with
      | some e => simp [model.forward]
      | none =>
        dsimp only
        rcases hD : addressData n a with ⟨⟨d, ed⟩, t2⟩
        cases ed with
        | some e => simp [model.forward]
        | none =>
          intro h
          simp only [teaModel.wallet.injEq] at h
          subst h
          simp [hD]
    | other code => simp [model.Update, model.forward] at h
  obtain ⟨p1, a1, d1⟩ := key n₁ m₁ k₁ w₁ h₁
  obtain ⟨p2, -, -⟩ := key n₂ m₂ k₂ w₂ h₂
  refine ⟨p1, ?_, ?_, ?_⟩
  · rw [a1]
  · rw [d1]
  · intro ha hd
    rw [← p1, ← p2]
    constructor
    · intro h
      rw [h]
    · intro hp
      cases w₁
      cases w₂
      simp_all

/-- The result screen of a submit of "hunter2" holds "hunter2". -/
theorem resolved_holds_passphrase_witness :
    (model.Update stubTextInput stubCrypto (stubNet 200 fundedBody) (typed "hunter2")
        enterKey).1.1
      = .wallet { passphrase := "hunter2", address := "1JwSSubhmg6iPtRjtyqhUYYH7bZg3Lfy1T",
                  addressData := { Address := "", ChainStats := ⟨5000, 0⟩ } }
    ∧ (⟨"hunter2", "1JwSSubhmg6iPtRjtyqhUYYH7bZg3Lfy1T", ⟨"", ⟨5000, 0⟩⟩⟩ : walletModel).passphrase
      = stubTextInput.Value (typed "hunter2").textInput :=
  ⟨rfl,
   (resolved_holds_passphrase stubTextInput stubCrypto (stubNet 200 fundedBody)
      (stubNet 200 fundedBody) (typed "hunter2") (typed "letmein")
      ⟨.KeyEnter, [], false⟩ ⟨.KeyEnter, [], false⟩
      ⟨"hunter2", "1JwSSubhmg6iPtRjtyqhUYYH7bZg3Lfy1T", ⟨"", ⟨5000, 0⟩⟩⟩
      ⟨"letmein", "1JwSSubhmg6iPtRjtyqhUYYH7bZg3Lfy1T", ⟨"", ⟨5000, 0⟩⟩⟩ rfl rfl).1⟩

/-! ## C10: what the input screen shows -/

/-- C10: `model.View` at the input screen left by a failed submit. The rendered string
is the prompt, the widget's view and the hint "(esc to quit)"; it is the same whatever
`err` holds, and for the failed submit of "hunter2" it does not include the error's
message. -/
theorem view_ignores_error {σ : Type} (ti : TextInput σ) (m : model σ)
    (e : Option GoError) :
    model.View ti { m with err := e } = model.View ti m
    ∧ model.View ti m
        = "Enter wallet passphrase:\n\n" ++ ti.View m.textInput ++ "\n\n(esc to quit)" ++ "\n"
    ∧ model.View stubTextInput failedState
        = "Enter wallet passphrase:\n\n> hunter2\n\n(esc to quit)\n"
    ∧ model.View stubTextInput failedState = model.View stubTextInput (typed "hunter2")
    ∧ ¬ ("mempool.space http status: Address not found".data
          <:+: (model.View stubTextInput failedState).data) := by
  refine ⟨rfl, ?_, ?_, rfl, ?_⟩
  · unfold model.View
    rw [Sprintf_view]
  · decide
  · decide

end Brainwallet
